import Mathlib

/-!
Verification of the jomarchy-agent-tools coordination logic.

This file shallowly embeds the decision logic of the repository —
the dashboard dependency-analysis utilities
(`dashboard/src/lib/utils/dependencyUtils.ts`), the project-color hash
(`getProjectColor`), the Beads query layer (`lib/beads.js`), the task
API routes, and the assignment coordinator described by the design
spec — and proves or refutes the specified properties about them.

Conventions: JavaScript strings are Lean `String`s, JS `null`/missing
fields are `Option`, JS numbers that stay integral are `Int`/`Nat`
(exact while |value| < 2^53, which holds on every path modelled here),
and JS 32-bit bitwise coercion is modelled explicitly with `emod 2^32`.
Fields of the source records that no verified property touches
(e.g. label lists and comment threads) are omitted from the embedding.
-/

namespace DepUtils

/-- One entry of a task's `depends_on` / `blocked_by` arrays as produced by
the dashboard (id, title, status, priority snapshot). -/
structure DepRef where
  id : String
  title : String
  status : String
  priority : Int
deriving DecidableEq, Repr

/-- The dashboard `Task` shape, restricted to the fields read by
`dependencyUtils.ts`.  `depends_on` and `blocked_by` are `Option` because the
TypeScript code guards them with `task.depends_on || []`. -/
structure DTask where
  id : String
  title : String
  status : String
  priority : Int
  assignee : Option String
  depends_on : Option (List DepRef)
  blocked_by : Option (List DepRef)
deriving DecidableEq, Repr

/-- Return type of `analyzeDependencies` (interface `DependencyStatus`). -/
structure DependencyStatus where
  hasBlockers : Bool
  hasBlockedTasks : Bool
  blockerCount : Nat
  blockedCount : Nat
  unresolvedBlockers : List DepRef
  blockedTasks : List DepRef
  canBeAssigned : Bool
  blockingReason : Option String
deriving DecidableEq, Repr

/-- Embedding of `analyzeDependencies` from
`dashboard/src/lib/utils/dependencyUtils.ts` (lines 34–61).  The JS
`(task.depends_on || []).filter(dep => dep.status !== 'closed')` becomes a
`List.filter` over `task.depends_on.getD []`. -/
def analyzeDependencies (task : DTask) : DependencyStatus :=
  let unresolvedBlockers := (task.depends_on.getD []).filter
    (fun dep => dep.status != "closed")
  let blockedTasks := task.blocked_by.getD []
  let hasBlockers : Bool := decide (unresolvedBlockers.length > 0)
  let canBeAssigned : Bool := !hasBlockers
  let blockingReason : Option String :=
    if hasBlockers then
      some ("Blocked by " ++ toString unresolvedBlockers.length ++ " unresolved "
        ++ (if unresolvedBlockers.length == 1 then "task" else "tasks"))
    else none
  { hasBlockers := hasBlockers
    hasBlockedTasks := decide (blockedTasks.length > 0)
    blockerCount := unresolvedBlockers.length
    blockedCount := blockedTasks.length
    unresolvedBlockers := unresolvedBlockers
    blockedTasks := blockedTasks
    canBeAssigned := canBeAssigned
    blockingReason := blockingReason }

/-- Return type of `getDependencyBadge`; the source field `show` is a Lean
keyword and is rendered `shown` here. -/
structure BadgeInfo where
  shown : Bool
  text : String
  color : String
  icon : String
  tooltip : String
deriving DecidableEq, Repr

/-- Embedding of `getDependencyBadge` from
`dashboard/src/lib/utils/dependencyUtils.ts` (lines 66–104). -/
def getDependencyBadge (depStatus : DependencyStatus) : BadgeInfo :=
  if depStatus.hasBlockers then
    { shown := true
      text := "🚫 " ++ toString depStatus.blockerCount
      color := "badge-error"
      icon := "🚫"
      tooltip := "Blocked by " ++ toString depStatus.blockerCount ++ " "
        ++ (if depStatus.blockerCount == 1 then "task" else "tasks") }
  else if depStatus.hasBlockedTasks then
    { shown := true
      text := "⚠️ " ++ toString depStatus.blockedCount
      color := "badge-warning"
      icon := "⚠️"
      tooltip := "Blocking " ++ toString depStatus.blockedCount ++ " "
        ++ (if depStatus.blockedCount == 1 then "task" else "tasks") }
  else
    { shown := false, text := "", color := "", icon := "", tooltip := "" }

end DepUtils

namespace DepUtils

/-- A ready task used to exercise the positive branch of the readiness
analysis: one dependency, already closed. -/
def readyTask : DTask :=
  { id := "jat-aaa", title := "ready", status := "open", priority := 1
    assignee := none
    depends_on := some [⟨"jat-bbb", "done dep", "closed", 2⟩]
    blocked_by := none }

/-- A blocked task whose three open dependencies carry priorities 1, 0, 2 —
neither ascending nor descending, so no priority sort can have produced the
filtered list. -/
def blockedTask : DTask :=
  { id := "jat-aaa", title := "blocked", status := "open", priority := 1
    assignee := none
    depends_on := some
      [⟨"jat-bbb", "b", "open", 1⟩,
       ⟨"jat-ccc", "c", "in_progress", 0⟩,
       ⟨"jat-ddd", "d", "open", 2⟩]
    blocked_by := none }

end DepUtils

/-- C1: `analyzeDependencies` reports a task assignable iff its `depends_on`
list is empty, missing, or all-closed (the quantifier over
`task.depends_on.getD []` is vacuous in the first two cases), and
`unresolvedBlockers` is exactly the non-closed subset of `depends_on`. -/
theorem DepUtils.analyzeDependencies_ready_iff (task : DepUtils.DTask) :
    ((DepUtils.analyzeDependencies task).canBeAssigned = true ↔
      ∀ dep ∈ task.depends_on.getD [], dep.status = "closed") ∧
    (DepUtils.analyzeDependencies task).unresolvedBlockers
      = (task.depends_on.getD []).filter (fun dep => dep.status != "closed") := by
  refine ⟨?_, rfl⟩
  have hcan : (DepUtils.analyzeDependencies task).canBeAssigned = true ↔
      (task.depends_on.getD []).filter (fun dep => dep.status != "closed") = [] := by
    simp [DepUtils.analyzeDependencies, List.length_eq_zero]
  rw [hcan, List.filter_eq_nil_iff]
  simp [bne_iff_ne]

/-- Witness for C1 at a concrete ready task: its single dependency is closed
and the analysis marks it assignable with no blockers. -/
theorem DepUtils.analyzeDependencies_ready_iff_witness :
    (DepUtils.analyzeDependencies DepUtils.readyTask).canBeAssigned = true ∧
    (DepUtils.analyzeDependencies DepUtils.readyTask).unresolvedBlockers = [] :=
  ⟨(DepUtils.analyzeDependencies_ready_iff DepUtils.readyTask).1.mpr (by decide),
   by decide⟩

/-- C2 counterexample: on `blockedTask` the returned blocker list carries
priorities `[1, 0, 2]`, which is sorted neither by ascending nor by
descending priority (with identifier tie-break): the code performs no sort,
it returns the filtered entries in `depends_on` order. -/
theorem DepUtils.blockers_not_sorted_counterexample :
    (DepUtils.analyzeDependencies DepUtils.blockedTask).unresolvedBlockers.map
      DepUtils.DepRef.priority = [1, 0, 2] ∧
    ¬ List.Pairwise (fun a b : DepUtils.DepRef =>
        a.priority < b.priority ∨ (a.priority = b.priority ∧ a.id ≤ b.id))
      (DepUtils.analyzeDependencies DepUtils.blockedTask).unresolvedBlockers ∧
    ¬ List.Pairwise (fun a b : DepUtils.DepRef =>
        b.priority < a.priority ∨ (b.priority = a.priority ∧ b.id ≤ a.id))
      (DepUtils.analyzeDependencies DepUtils.blockedTask).unresolvedBlockers := by
  refine ⟨by decide, ?_, ?_⟩ <;> decide

/-- C2 as amended: the blocker list is the non-closed entries of `depends_on`
in their original order — an order-preserving sublist, every element of which
is non-closed; no priority/identifier sorting is applied. -/
theorem DepUtils.blockers_preserve_order (task : DepUtils.DTask) :
    ((DepUtils.analyzeDependencies task).unresolvedBlockers).Sublist
      (task.depends_on.getD []) ∧
    ∀ dep ∈ (DepUtils.analyzeDependencies task).unresolvedBlockers,
      dep.status ≠ "closed" := by
  constructor
  · exact List.filter_sublist _
  · intro dep hdep
    have h := List.of_mem_filter hdep
    simpa [bne_iff_ne] using h

/-- Witness for C2's amended statement at the concrete blocked task. -/
theorem DepUtils.blockers_preserve_order_witness :
    ((DepUtils.analyzeDependencies DepUtils.blockedTask).unresolvedBlockers).Sublist
      (DepUtils.blockedTask.depends_on.getD []) ∧
    (DepUtils.analyzeDependencies DepUtils.blockedTask).unresolvedBlockers.length = 3 :=
  ⟨(DepUtils.blockers_preserve_order DepUtils.blockedTask).1, by decide⟩

namespace DepUtils

/-- A task with no dependencies whose single `blocked_by` entry is already
closed — the dependents query of `lib/beads.js` applies no status filter, so
such records reach the badge code. -/
def closedDependentTask : DTask :=
  { id := "jat-aaa", title := "t", status := "open", priority := 1
    assignee := none
    depends_on := none
    blocked_by := some [⟨"jat-bbb", "done dependent", "closed", 1⟩] }

end DepUtils

/-- C3 counterexample: a task with no blockers whose only dependent is
`closed` still gets the warning badge — the code conditions the warning on
`blocked_by` being nonempty with no status filter, while the claim reserves
the warning for *open* dependents and says the badge is hidden otherwise. -/
theorem DepUtils.badge_closed_dependents_counterexample :
    (DepUtils.analyzeDependencies DepUtils.closedDependentTask).hasBlockers = false ∧
    (∀ dep ∈ DepUtils.closedDependentTask.blocked_by.getD [],
      dep.status = "closed") ∧
    (DepUtils.getDependencyBadge
      (DepUtils.analyzeDependencies DepUtils.closedDependentTask)).shown = true ∧
    (DepUtils.getDependencyBadge
      (DepUtils.analyzeDependencies DepUtils.closedDependentTask)).color
      = "badge-warning" := by
  refine ⟨by decide, by decide, by decide, by decide⟩

/-- C3 as amended: assignment is prevented exactly when a non-closed
dependency exists (`canBeAssigned` is false iff `hasBlockers`, and it is
unchanged by any rewrite of `blocked_by`), and `getDependencyBadge` maps
blocked tasks to the error badge showing `blockerCount`, blocker-free tasks
with a nonempty `blocked_by` list — dependents of *any* status — to the
warning badge showing `blockedCount`, and hides the badge only when both
lists are empty. -/
theorem DepUtils.badge_encodes_blocking (task : DepUtils.DTask)
    (bb : Option (List DepUtils.DepRef)) :
    ((DepUtils.analyzeDependencies task).canBeAssigned = false ↔
      (DepUtils.analyzeDependencies task).hasBlockers = true) ∧
    (DepUtils.analyzeDependencies { task with blocked_by := bb }).canBeAssigned
      = (DepUtils.analyzeDependencies task).canBeAssigned ∧
    DepUtils.getDependencyBadge (DepUtils.analyzeDependencies task)
      = (if (DepUtils.analyzeDependencies task).hasBlockers then
          { shown := true
            text := "🚫 " ++ toString (DepUtils.analyzeDependencies task).blockerCount
            color := "badge-error"
            icon := "🚫"
            tooltip := "Blocked by "
              ++ toString (DepUtils.analyzeDependencies task).blockerCount ++ " "
              ++ (if (DepUtils.analyzeDependencies task).blockerCount == 1
                  then "task" else "tasks") }
        else if (DepUtils.analyzeDependencies task).hasBlockedTasks then
          { shown := true
            text := "⚠️ " ++ toString (DepUtils.analyzeDependencies task).blockedCount
            color := "badge-warning"
            icon := "⚠️"
            tooltip := "Blocking "
              ++ toString (DepUtils.analyzeDependencies task).blockedCount ++ " "
              ++ (if (DepUtils.analyzeDependencies task).blockedCount == 1
                  then "task" else "tasks") }
        else { shown := false, text := "", color := "", icon := "", tooltip := "" }) := by
  refine ⟨?_, rfl, rfl⟩
  simp [DepUtils.analyzeDependencies]

namespace ProjColor

/-- The 16-entry palette `projectColorPalette` from the project-color
utility (`src/unnamed/part_000`, lines 7–24). -/
def projectColorPalette : List String :=
  ["#3b82f6", "#8b5cf6", "#ec4899", "#f59e0b",
   "#10b981", "#06b6d4", "#f97316", "#6366f1",
   "#14b8a6", "#a855f7", "#84cc16", "#22d3ee",
   "#fb923c", "#4ade80", "#c084fc", "#fb7185"]

/-- ECMAScript `ToInt32`: reduce an exact integer to the signed 32-bit value
JavaScript's bitwise operators act on. -/
def toInt32 (n : Int) : Int :=
  let m := n.emod 4294967296
  if m < 2147483648 then m else m - 4294967296

/-- One iteration of the hash loop
`hash = prefix.charCodeAt(i) + ((hash << 5) - hash)`:
the shift coerces to int32 and wraps, the subtraction and addition are exact
double arithmetic (exact for every value reachable here). -/
def hashStep (hash : Int) (c : Char) : Int :=
  (c.toNat : Int) + (toInt32 (toInt32 hash * 32) - hash)

/-- The characters of `taskId.split('-')[0]`: everything before the first
`'-'` (the whole string if it has none). -/
def firstSegment (cs : List Char) : List Char :=
  cs.takeWhile (fun c => c != '-')

/-- The accumulated hash of a project segment. -/
def projectHash (cs : List Char) : Int :=
  cs.foldl hashStep 0

/-- Embedding of `getProjectColor` (`src/unnamed/part_000`, lines 30–45):
empty ids map to gray, otherwise the project segment is hashed and
`Math.abs(hash) % palette.length` indexes the palette. -/
def getProjectColor (taskId : String) : String :=
  if taskId = "" then "#6b7280"
  else
    let seg := firstSegment taskId.toList
    projectColorPalette.getD ((projectHash seg).natAbs % projectColorPalette.length) ""

end ProjColor

/-- C10 counterexample: `""` and `"-abc"` have the same substring before the
first `'-'` (the empty segment), yet the empty id is mapped to the gray
fallback `#6b7280` while `"-abc"` hashes to palette entry 0 — so color
equality for equal project segments fails when one id is empty. -/
theorem ProjColor.color_empty_vs_dash_counterexample :
    ProjColor.firstSegment "".toList = ProjColor.firstSegment "-abc".toList ∧
    ProjColor.getProjectColor "" = "#6b7280" ∧
    ProjColor.getProjectColor "-abc" = "#3b82f6" ∧
    ProjColor.getProjectColor "" ≠ ProjColor.getProjectColor "-abc" := by
  refine ⟨by decide, rfl, by decide, by decide⟩

/-- C10 as amended: for *non-empty* identifiers the color depends only on the
substring before the first `'-'`, every non-empty identifier receives one of
the 16 palette colors, and the empty identifier receives `#6b7280`. -/
theorem ProjColor.getProjectColor_spec (s t : String)
    (hs : s ≠ "") (ht : t ≠ "")
    (hseg : ProjColor.firstSegment s.toList = ProjColor.firstSegment t.toList) :
    ProjColor.getProjectColor s = ProjColor.getProjectColor t ∧
    ProjColor.getProjectColor s ∈ ProjColor.projectColorPalette ∧
    ProjColor.getProjectColor "" = "#6b7280" := by
  refine ⟨?_, ?_, rfl⟩
  · simp only [ProjColor.getProjectColor, if_neg hs, if_neg ht]
    rw [hseg]
  · have hlen : (ProjColor.projectHash (ProjColor.firstSegment s.toList)).natAbs %
        ProjColor.projectColorPalette.length < ProjColor.projectColorPalette.length :=
      Nat.mod_lt _ (by decide)
    simp only [ProjColor.getProjectColor, hs, if_false, if_neg hs]
    rw [List.getD_eq_getElem _ _ hlen]
    exact List.getElem_mem hlen

/-- Witness for C10's amended statement: two concrete ids in project `jat`
get the same palette color. -/
theorem ProjColor.getProjectColor_spec_witness :
    ProjColor.getProjectColor "jat-abc" = ProjColor.getProjectColor "jat-xyz" ∧
    ProjColor.getProjectColor "jat-abc" ∈ ProjColor.projectColorPalette :=
  ⟨(ProjColor.getProjectColor_spec "jat-abc" "jat-xyz" (by decide) (by decide)
      (by decide)).1,
   (ProjColor.getProjectColor_spec "jat-abc" "jat-xyz" (by decide) (by decide)
      (by decide)).2.1⟩

namespace Beads

/-- A row of a project's `issues` table, restricted to the columns the query
layer reads (`created_at` as an exact timestamp). -/
structure BIssue where
  id : String
  title : String
  status : String
  priority : Int
  created_at : Nat
deriving DecidableEq, Repr

/-- A row of the `dependencies` table; the source column `type` is a Lean
keyword and is rendered `dtype`. -/
structure BDepEdge where
  issue_id : String
  depends_on_id : String
  dtype : String
deriving DecidableEq, Repr

/-- One project with a Beads database (`getProjects` result plus the
database's tables). -/
structure BProject where
  name : String
  issues : List BIssue
  deps : List BDepEdge
deriving DecidableEq, Repr

/-- A `depends_on` / dependents entry as built by `lib/beads.js`: the LEFT
JOIN leaves `title`/`status`/`priority` NULL when the referenced issue is
missing, hence the `Option` fields. -/
structure BDepRef where
  id : String
  dtype : String
  title : Option String
  status : Option String
  priority : Option Int
deriving DecidableEq, Repr

/-- A normalized task as returned by `getTasks` / `getTaskById`.  The reverse
edges are called `blocked_by` by `getTasks` and `dependents` by
`getTaskById`; both are the same query and are one field here. -/
structure BTask where
  id : String
  title : String
  status : String
  priority : Int
  created_at : Nat
  project : String
  depends_on : List BDepRef
  blocked_by : List BDepRef
deriving DecidableEq, Repr

/-- The dependency query of `lib/beads.js`:
`SELECT d.depends_on_id, d.type, i.title, i.status, i.priority FROM
dependencies d LEFT JOIN issues i ON d.depends_on_id = i.id WHERE
d.issue_id = ?`. -/
def depRefsOf (p : BProject) (taskId : String) : List BDepRef :=
  (p.deps.filter (fun d => d.issue_id == taskId)).map (fun d =>
    match p.issues.find? (fun i => i.id == d.depends_on_id) with
    | some i => { id := d.depends_on_id, dtype := d.dtype, title := some i.title,
                  status := some i.status, priority := some i.priority }
    | none => { id := d.depends_on_id, dtype := d.dtype, title := none,
                status := none, priority := none })

/-- The dependents query (same LEFT JOIN, keyed on `d.depends_on_id = ?`). -/
def dependentsOf (p : BProject) (taskId : String) : List BDepRef :=
  (p.deps.filter (fun d => d.depends_on_id == taskId)).map (fun d =>
    match p.issues.find? (fun i => i.id == d.issue_id) with
    | some i => { id := d.issue_id, dtype := d.dtype, title := some i.title,
                  status := some i.status, priority := some i.priority }
    | none => { id := d.issue_id, dtype := d.dtype, title := none,
                status := none, priority := none })

/-- The task record `getTasks`/`getTaskById` build for issue `i` of project
`p` (project annotation plus both dependency queries). -/
def mkTask (p : BProject) (i : BIssue) : BTask :=
  { id := i.id, title := i.title, status := i.status, priority := i.priority,
    created_at := i.created_at, project := p.name,
    depends_on := depRefsOf p i.id, blocked_by := dependentsOf p i.id }

/-- The optional filters of `getTasks(options)`. -/
structure QueryOptions where
  status : Option String
  priority : Option Int
  projectName : Option String
deriving DecidableEq, Repr

/-- The WHERE clause of the `getTasks` query (status/priority filters). -/
def matchesFilters (opts : QueryOptions) (i : BIssue) : Bool :=
  (match opts.status with | some s => i.status == s | none => true) &&
  (match opts.priority with | some pr => i.priority == pr | none => true)

/-- The key order of both sorts in `getTasks`: priority ascending, then
creation time descending (`ORDER BY i.priority ASC, i.created_at DESC` per
project and the final JS comparator `a.priority - b.priority` /
`new Date(b.created_at) - new Date(a.created_at)`). -/
def issueLe (a b : BIssue) : Prop :=
  a.priority < b.priority ∨ (a.priority = b.priority ∧ b.created_at ≤ a.created_at)

/-- The same key order on built task records. -/
def taskLe (a b : BTask) : Prop :=
  a.priority < b.priority ∨ (a.priority = b.priority ∧ b.created_at ≤ a.created_at)

instance : DecidableRel issueLe := fun a b =>
  decidable_of_iff
    (a.priority < b.priority ∨ (a.priority = b.priority ∧ b.created_at ≤ a.created_at))
    Iff.rfl

instance : DecidableRel taskLe := fun a b =>
  decidable_of_iff
    (a.priority < b.priority ∨ (a.priority = b.priority ∧ b.created_at ≤ a.created_at))
    Iff.rfl

instance : IsTotal BIssue issueLe :=
  ⟨fun a b => by unfold issueLe; omega⟩

instance : IsTrans BIssue issueLe :=
  ⟨fun a b c hab hbc => by unfold issueLe at *; omega⟩

instance : IsTotal BTask taskLe :=
  ⟨fun a b => by unfold taskLe; omega⟩

instance : IsTrans BTask taskLe :=
  ⟨fun a b c hab hbc => by unfold taskLe at *; omega⟩

/-- Embedding of `getTasks` from `lib/beads.js` (lines 60–167): select the
projects (a missing `projectName` filter keeps all; a non-matching one keeps
none — the early `return []` and the per-project `continue` coincide with
this filter), query each project's issues with the WHERE filters and the
per-project ORDER BY, build the task records, then globally sort with the
same priority-then-created_at key.  JS `Array.prototype.sort` is modelled by
`insertionSort` over the comparator's preorder — every property proved below
is tie-order independent. -/
def getTasks (opts : QueryOptions) (projects : List BProject) : List BTask :=
  List.insertionSort taskLe
    ((projects.filter (fun p =>
        match opts.projectName with | some n => p.name == n | none => true)).flatMap
      (fun p =>
        (List.insertionSort issueLe (p.issues.filter (matchesFilters opts))).map
          (mkTask p)))

/-- Embedding of `getTaskById` from `lib/beads.js` (lines 175–256): scan the
projects in order and return the enriched record of the first issue whose
`id` matches, or `null`. -/
def getTaskById (taskId : String) (projects : List BProject) : Option BTask :=
  match projects with
  | [] => none
  | p :: rest =>
    match p.issues.find? (fun i => i.id == taskId) with
    | some i => some (mkTask p i)
    | none => getTaskById taskId rest

/-- A dependency entry counts as resolved iff its joined status is exactly
`'closed'` (a NULL status from a dangling edge is *not* closed). -/
def isClosedRef (d : BDepRef) : Bool :=
  d.status == some "closed"

/-- The options `getReadyTasks` passes to `getTasks`. -/
def openOpts : QueryOptions :=
  { status := some "open", priority := none, projectName := none }

/-- Embedding of `getReadyTasks` from `lib/beads.js` (lines 262–284): list
open tasks, re-fetch each by id, keep those whose dependencies are all
closed; a task whose re-fetch fails is kept as-is (the `else` branch —
`fullTask.depends_on` is always a, possibly empty, truthy array). -/
def getReadyTasks (projects : List BProject) : List BTask :=
  (getTasks openOpts projects).flatMap (fun task =>
    match getTaskById task.id projects with
    | some fullTask =>
      if fullTask.depends_on.all isClosedRef then [fullTask] else []
    | none => [task])

/-- All issue identifiers of a project collection, in scan order. -/
def allIds (projects : List BProject) : List String :=
  projects.flatMap (fun p => p.issues.map BIssue.id)

end Beads

/-- C9: every `getTasks` result is sorted by priority ascending and, within
equal priorities, by creation time descending (newest first). -/
theorem Beads.getTasks_sorted (opts : Beads.QueryOptions)
    (projects : List Beads.BProject) :
    List.Pairwise (fun a b : Beads.BTask =>
        a.priority < b.priority ∨
          (a.priority = b.priority ∧ b.created_at ≤ a.created_at))
      (Beads.getTasks opts projects) :=
  List.sorted_insertionSort Beads.taskLe _

namespace Beads

/-- First project of the duplicate-id counterexample: issue `x` depends on
the still-open issue `y`. -/
def dupProjA : BProject :=
  { name := "p1"
    issues := [⟨"x", "shared id", "open", 1, 10⟩, ⟨"y", "the dep", "open", 1, 5⟩]
    deps := [⟨"x", "y", "blocks"⟩] }

/-- Second project of the duplicate-id counterexample: an issue that reuses
the identifier `x` but has no dependencies. -/
def dupProjB : BProject :=
  { name := "p2", issues := [⟨"x", "shared id", "open", 1, 10⟩], deps := [] }

/-- The dependency-free issue of `dupProjB`. -/
def dupIssueB : BIssue := ⟨"x", "shared id", "open", 1, 10⟩

/-- A one-project store whose single task is open and dependency-free. -/
def soloProj : BProject :=
  { name := "solo", issues := [⟨"solo-aaa", "t", "open", 1, 0⟩], deps := [] }

/-- The single issue of `soloProj`. -/
def soloIssue : BIssue := ⟨"solo-aaa", "t", "open", 1, 0⟩

end Beads

/-- C7 counterexample: when two projects reuse one identifier, `getTaskById`
resolves the re-fetch inside `getReadyTasks` against the first project, so
`dupProjB`'s open, dependency-free task `x` does not appear in the result —
the membership "iff" fails on such a collection. -/
theorem Beads.getReadyTasks_duplicate_id_counterexample :
    Beads.dupProjB ∈ [Beads.dupProjA, Beads.dupProjB] ∧
    Beads.dupIssueB ∈ Beads.dupProjB.issues ∧
    Beads.dupIssueB.status = "open" ∧
    (Beads.depRefsOf Beads.dupProjB Beads.dupIssueB.id).all Beads.isClosedRef = true ∧
    Beads.mkTask Beads.dupProjB Beads.dupIssueB ∉
      Beads.getReadyTasks [Beads.dupProjA, Beads.dupProjB] := by
  refine ⟨by decide, by decide, rfl, rfl, by decide⟩

/-- Membership in `getTasks`: a task record is produced exactly from a
selected project's issue that passes the WHERE filters (both sorts are
permutations). -/
theorem Beads.mem_getTasks_iff (opts : Beads.QueryOptions)
    (projects : List Beads.BProject) (t : Beads.BTask) :
    t ∈ Beads.getTasks opts projects ↔
      ∃ p ∈ projects,
        (match opts.projectName with | some n => p.name == n | none => true) = true ∧
        ∃ i ∈ p.issues, Beads.matchesFilters opts i = true ∧ t = Beads.mkTask p i := by
  unfold Beads.getTasks
  rw [(List.perm_insertionSort Beads.taskLe _).mem_iff, List.mem_flatMap]
  constructor
  · rintro ⟨p, hp, ht⟩
    rw [List.mem_filter] at hp
    obtain ⟨i, hi, rfl⟩ := List.mem_map.mp ht
    rw [(List.perm_insertionSort Beads.issueLe _).mem_iff, List.mem_filter] at hi
    exact ⟨p, hp.1, hp.2, i, hi.1, hi.2, rfl⟩
  · rintro ⟨p, hp, hname, i, hi, hfil, rfl⟩
    refine ⟨p, List.mem_filter.mpr ⟨hp, hname⟩, List.mem_map.mpr ⟨i, ?_, rfl⟩⟩
    rw [(List.perm_insertionSort Beads.issueLe _).mem_iff, List.mem_filter]
    exact ⟨hi, hfil⟩

/-- With duplicate-free identifiers inside one project, `find?` by id hits
exactly the sought issue. -/
theorem Beads.find_issue_of_nodup (issues : List Beads.BIssue) (i : Beads.BIssue)
    (hn : (issues.map Beads.BIssue.id).Nodup) (hi : i ∈ issues) :
    issues.find? (fun j => j.id == i.id) = some i := by
  induction issues with
  | nil => cases hi
  | cons j rest ih =>
    rw [List.map_cons, List.nodup_cons] at hn
    rcases List.mem_cons.mp hi with rfl | hmem
    · simp [List.find?]
    · have hne : (j.id == i.id) = false := by
        rw [beq_eq_false_iff_ne]
        intro heq
        exact hn.1 (heq ▸ List.mem_map_of_mem Beads.BIssue.id hmem)
      simp only [List.find?, hne]
      exact ih hn.2 hmem

/-- Under globally unique identifiers, `getTaskById` returns exactly the
record of the issue carrying that id. -/
theorem Beads.getTaskById_of_mem (projects : List Beads.BProject)
    (hu : (Beads.allIds projects).Nodup) (p : Beads.BProject) (i : Beads.BIssue)
    (hp : p ∈ projects) (hi : i ∈ p.issues) :
    Beads.getTaskById i.id projects = some (Beads.mkTask p i) := by
  induction projects with
  | nil => cases hp
  | cons q rest ih =>
    have hu' : (q.issues.map Beads.BIssue.id).Nodup ∧ (Beads.allIds rest).Nodup ∧
        ∀ a ∈ q.issues.map Beads.BIssue.id, a ∉ Beads.allIds rest := by
      have h := hu
      unfold Beads.allIds at h
      rw [List.flatMap_cons, List.nodup_append] at h
      exact ⟨h.1, h.2.1, fun a ha => h.2.2 ha⟩
    rcases List.mem_cons.mp hp with rfl | hpmem
    · unfold Beads.getTaskById
      rw [Beads.find_issue_of_nodup p.issues i hu'.1 hi]
    · have hnone : q.issues.find? (fun j => j.id == i.id) = none := by
        rw [List.find?_eq_none]
        intro j hj
        simp only [beq_iff_eq]
        intro heq
        have h1 : j.id ∈ q.issues.map Beads.BIssue.id :=
          List.mem_map_of_mem Beads.BIssue.id hj
        have h2 : i.id ∈ Beads.allIds rest := by
          unfold Beads.allIds
          exact List.mem_flatMap.mpr ⟨p, hpmem, List.mem_map_of_mem Beads.BIssue.id hi⟩
        exact hu'.2.2 j.id h1 (heq ▸ h2)
      unfold Beads.getTaskById
      rw [hnone]
      exact ih hu'.2.1 hpmem

/-- Soundness of `getTaskById`: a returned record is built from some issue of
some scanned project carrying the requested id. -/
theorem Beads.getTaskById_eq_some (projects : List Beads.BProject)
    (taskId : String) (t : Beads.BTask)
    (h : Beads.getTaskById taskId projects = some t) :
    ∃ p ∈ projects, ∃ i ∈ p.issues, i.id = taskId ∧ t = Beads.mkTask p i := by
  induction projects with
  | nil => simp [Beads.getTaskById] at h
  | cons q rest ih =>
    unfold Beads.getTaskById at h
    cases hfind : q.issues.find? (fun i => i.id == taskId) with
    | some i =>
      rw [hfind] at h
      refine ⟨q, List.mem_cons_self q rest, i, List.mem_of_find?_eq_some hfind, ?_, ?_⟩
      · have hpa := List.find?_some hfind
        exact beq_iff_eq.mp hpa
      · exact (Option.some.inj h).symm
    | none =>
      rw [hfind] at h
      obtain ⟨p, hp, hrest⟩ := ih h
      exact ⟨p, List.mem_cons_of_mem q hp, hrest⟩

/-- C7 as amended: over a collection whose task identifiers are globally
unique (no id reused across or within projects), a task record appears in
`getReadyTasks` iff it is built from an issue whose status is `open` and all
of whose dependency entries resolve to status `closed` — in particular every
open issue without dependencies is included. -/
theorem Beads.getReadyTasks_mem_iff (projects : List Beads.BProject)
    (hu : (Beads.allIds projects).Nodup) (t : Beads.BTask) :
    t ∈ Beads.getReadyTasks projects ↔
      ∃ p ∈ projects, ∃ i ∈ p.issues, t = Beads.mkTask p i ∧ i.status = "open" ∧
        (Beads.depRefsOf p i.id).all Beads.isClosedRef = true := by
  unfold Beads.getReadyTasks
  rw [List.mem_flatMap]
  constructor
  · rintro ⟨task, htask, hstep⟩
    obtain ⟨p, hp, -, i, hi, hfil, rfl⟩ :=
      (Beads.mem_getTasks_iff Beads.openOpts projects task).mp htask
    have hopen : i.status = "open" := by
      simpa [Beads.matchesFilters, Beads.openOpts] using hfil
    have hbyid : Beads.getTaskById (Beads.mkTask p i).id projects
        = some (Beads.mkTask p i) :=
      Beads.getTaskById_of_mem projects hu p i hp hi
    rw [hbyid] at hstep
    change t ∈ (if (Beads.mkTask p i).depends_on.all Beads.isClosedRef = true
      then [Beads.mkTask p i] else []) at hstep
    by_cases hall : (Beads.mkTask p i).depends_on.all Beads.isClosedRef = true
    · rw [if_pos hall] at hstep
      rcases List.mem_singleton.mp hstep with rfl
      exact ⟨p, hp, i, hi, rfl, hopen, hall⟩
    · rw [if_neg hall] at hstep
      cases hstep
  · rintro ⟨p, hp, i, hi, rfl, hopen, hall⟩
    refine ⟨Beads.mkTask p i, ?_, ?_⟩
    · exact (Beads.mem_getTasks_iff Beads.openOpts projects _).mpr
        ⟨p, hp, rfl, i, hi, by simp [Beads.matchesFilters, Beads.openOpts, hopen], rfl⟩
    · have hbyid : Beads.getTaskById (Beads.mkTask p i).id projects
          = some (Beads.mkTask p i) :=
        Beads.getTaskById_of_mem projects hu p i hp hi
      rw [hbyid]
      change Beads.mkTask p i ∈
        (if (Beads.mkTask p i).depends_on.all Beads.isClosedRef = true
          then [Beads.mkTask p i] else [])
      have hall' : (Beads.mkTask p i).depends_on.all Beads.isClosedRef = true := hall
      rw [if_pos hall']
      exact List.mem_singleton.mpr rfl

/-- Witness for C7's amended statement: in a unique-id store, the open,
dependency-free task of `soloProj` is returned by `getReadyTasks`. -/
theorem Beads.getReadyTasks_mem_iff_witness :
    Beads.mkTask Beads.soloProj Beads.soloIssue ∈ Beads.getReadyTasks [Beads.soloProj] :=
  (Beads.getReadyTasks_mem_iff [Beads.soloProj] (by decide)
      (Beads.mkTask Beads.soloProj Beads.soloIssue)).mpr
    ⟨Beads.soloProj, by decide, Beads.soloIssue, by decide, rfl, rfl, rfl⟩

namespace Api

/-- A JSON response body: either an error object or a task payload. -/
inductive ApiBody
  | err (msg : String)
  | task (t : Beads.BTask)
deriving DecidableEq, Repr

/-- An HTTP response: status code and body. -/
structure ApiResponse where
  status : Nat
  body : ApiBody
deriving DecidableEq, Repr

/-- Embedding of the task-detail `GET` handler (`src/unnamed/part_004`,
lines 13–23): fetch the task by id, answer 404 `Task not found` when the
store has no such task, otherwise the task with the default success
status 200.  No validation of any kind precedes the lookup. -/
def getTaskRoute (taskId : String) (projects : List Beads.BProject) : ApiResponse :=
  match Beads.getTaskById taskId projects with
  | none => { status := 404, body := .err "Task not found" }
  | some t => { status := 200, body := .task t }

/-- A lowercase ASCII letter (the class `[a-z]`). -/
def isLowerAlpha (c : Char) : Bool :=
  'a' ≤ c && c ≤ 'z'

/-- A lowercase letter or digit (the class `[a-z0-9]`). -/
def isLowerAlnum (c : Char) : Bool :=
  isLowerAlpha c || ('0' ≤ c && c ≤ '9')

/-- The task-id format `/^[a-z]+-[a-z0-9]{3}$/` (spec: `<project>-<3char>`).
A match decomposes uniquely as a non-empty all-letter project part, a dash
at position `length - 4`, and three trailing alphanumerics, because `-`
belongs to neither character class. -/
def validTaskId (s : String) : Bool :=
  decide (5 ≤ s.toList.length) &&
  (s.toList.take (s.toList.length - 4)).all isLowerAlpha &&
  decide (s.toList.getD (s.toList.length - 4) ' ' = '-') &&
  (s.toList.drop (s.toList.length - 3)).all isLowerAlnum

/-- Modelled from the spec: the assignment handler itself is not among the
`src/` code files (its text survives only as a quotation in
`dashboard/docs/drag-drop-error-handling-test-report.md`); this definition
follows §4.3 step 1 / §7 of the spec and that quoted handler.  Missing
fields are rejected with 400, an identifier failing
`/^[a-z]+-[a-z0-9]{3}$/` is rejected as InvalidFormat (400) before the store
is consulted, an absent task yields 404, and otherwise the handler commits
and returns the task (the commit write itself is outside the scope of the
format-validation claim and the fetched task is returned unchanged). -/
def assignRoute (taskId agentName : String) (projects : List Beads.BProject) :
    ApiResponse :=
  if taskId == "" || agentName == "" then
    { status := 400, body := .err "Missing required fields" }
  else if !validTaskId taskId then
    { status := 400, body := .err "Invalid task ID format" }
  else
    match Beads.getTaskById taskId projects with
    | none => { status := 404, body := .err "Task not found" }
    | some t => { status := 200, body := .task t }

end Api

/-- C6: the task-detail handler answers 404 `Task not found` exactly when
`getTaskById` is `null`, and otherwise returns the found task with the
success status 200. -/
theorem Api.getTaskRoute_not_found_iff (taskId : String)
    (projects : List Beads.BProject) :
    (((Api.getTaskRoute taskId projects).status = 404 ∧
        (Api.getTaskRoute taskId projects).body = Api.ApiBody.err "Task not found") ↔
      Beads.getTaskById taskId projects = none) ∧
    ∀ t, Beads.getTaskById taskId projects = some t →
      Api.getTaskRoute taskId projects = { status := 200, body := Api.ApiBody.task t } := by
  unfold Api.getTaskRoute
  cases h : Beads.getTaskById taskId projects with
  | none => simp
  | some t =>
    refine ⟨by simp, ?_⟩
    rintro t' ht'
    cases ht'
    rfl

/-- Witness for C6 at a concrete store: the lookup of `solo-aaa` succeeds
and the handler returns it with status 200. -/
theorem Api.getTaskRoute_not_found_iff_witness :
    Api.getTaskRoute "solo-aaa" [Beads.soloProj]
      = { status := 200
          body := Api.ApiBody.task (Beads.mkTask Beads.soloProj Beads.soloIssue) } :=
  (Api.getTaskRoute_not_found_iff "solo-aaa" [Beads.soloProj]).2
    (Beads.mkTask Beads.soloProj Beads.soloIssue) (by decide)

/-- C5 counterexample: `"BAD"` fails the `<project>-<3char>` format, yet the
lookup (task-detail) handler does not answer InvalidFormat — it performs the
store lookup and returns NotFound (404), never a 400. -/
theorem Api.lookup_no_format_validation_counterexample :
    Api.validTaskId "BAD" = false ∧
    Api.getTaskRoute "BAD" [] = { status := 404, body := Api.ApiBody.err "Task not found" } ∧
    (Api.getTaskRoute "BAD" []).status ≠ 400 := by
  refine ⟨by decide, rfl, by decide⟩

/-- C5 as amended: only *assignment* requests validate the task-id format —
a malformed id is answered InvalidFormat (400) with a result independent of
the store, i.e. before any lookup — while the task-detail *lookup* handler
performs no format validation and never returns 400. -/
theorem Api.invalid_format_before_lookup (taskId agentName : String)
    (projects projects' : List Beads.BProject)
    (hid : (taskId == "") = false) (hagent : (agentName == "") = false)
    (hfmt : Api.validTaskId taskId = false) :
    Api.assignRoute taskId agentName projects
        = { status := 400, body := Api.ApiBody.err "Invalid task ID format" } ∧
    Api.assignRoute taskId agentName projects
        = Api.assignRoute taskId agentName projects' ∧
    ∀ id2 ps2, (Api.getTaskRoute id2 ps2).status ≠ 400 := by
  have hmain : ∀ ps : List Beads.BProject, Api.assignRoute taskId agentName ps
      = { status := 400, body := Api.ApiBody.err "Invalid task ID format" } := by
    intro ps
    unfold Api.assignRoute
    rw [hid, hagent, hfmt]
    rfl
  refine ⟨hmain projects, (hmain projects).trans (hmain projects').symm, ?_⟩
  intro id2 ps2
  unfold Api.getTaskRoute
  cases Beads.getTaskById id2 ps2 <;> simp

/-- Witness for C5's amended statement: a concretely malformed id is
rejected as InvalidFormat by the assignment handler over a non-empty store. -/
theorem Api.invalid_format_before_lookup_witness :
    Api.assignRoute "Bad_ID" "agent" [Beads.soloProj]
      = { status := 400, body := Api.ApiBody.err "Invalid task ID format" } :=
  (Api.invalid_format_before_lookup "Bad_ID" "agent" [Beads.soloProj] []
    (by decide) (by decide) (by decide)).1

namespace Coord

/-- Modelled from the spec: the Assignment Coordinator's transactional
claim protocol is not present under `src/` as code (the spec's §4.3/§5
describe it; the repository only documents it).  Each `Assign` call on one
ready, unassigned task is a sequence of two atomic actions — acquire the
exclusive lease inside the Reservation Manager's critical section (§5.1),
then commit via a compare-and-set on the task's assignee (§5.2) — after the
snapshot checks of steps 1–2, which pass for a ready task.  `CallPhase`
tracks one call's progress. -/
inductive CallPhase
  | ready
  | leased
  | doneAssigned
  | doneStoreConflict
  | doneResConflict
deriving DecidableEq, Repr

instance : Fintype CallPhase :=
  ⟨⟨{CallPhase.ready, CallPhase.leased, CallPhase.doneAssigned,
     CallPhase.doneStoreConflict, CallPhase.doneResConflict}, by decide⟩,
   by intro x; cases x <;> decide⟩

/-- Joint state of two racing `Assign` calls: each call's phase plus the
task's assignee cell (`none` = unassigned, `some false` = claimed by
call 1, `some true` = claimed by call 2). -/
abbrev RaceState := CallPhase × CallPhase × Option Bool

/-- Whether a call in this phase currently holds its lease (acquired and not
rejected; finished calls keep theirs within the race window — releasing
earlier could only remove conflicts, not add assignments). -/
def holdsLease : CallPhase → Bool
  | .ready => false
  | .doneResConflict => false
  | _ => true

/-- Whether the call has reached a terminal outcome. -/
def phaseDone : CallPhase → Bool
  | .doneAssigned => true
  | .doneStoreConflict => true
  | .doneResConflict => true
  | _ => false

/-- Whether the call's terminal outcome is `Assigned`. -/
def isAssigned : CallPhase → Bool :=
  fun p => p == .doneAssigned

/-- One atomic action of the call currently in phase `own`, racing the call
in phase `other`: acquiring conflicts iff the pattern sets overlap and the
other call holds its lease; committing is a compare-and-set on the
assignee. -/
def stepCall (overlap : Bool) (own other : CallPhase) (asg : Option Bool)
    (iden : Bool) : CallPhase × Option Bool :=
  match own with
  | .ready =>
    if overlap && holdsLease other then (.doneResConflict, asg) else (.leased, asg)
  | .leased =>
    match asg with
    | none => (.doneAssigned, some iden)
    | some a => (.doneStoreConflict, some a)
  | d => (d, asg)

/-- Advance the scheduled call (`false` = call 1, `true` = call 2) by one
atomic action; finished calls are unchanged. -/
def step (overlap : Bool) (s : RaceState) (which : Bool) : RaceState :=
  if which then
    ((s.1, (stepCall overlap s.2.1 s.1 s.2.2 true).1,
      (stepCall overlap s.2.1 s.1 s.2.2 true).2) : RaceState)
  else
    (((stepCall overlap s.1 s.2.1 s.2.2 false).1, s.2.1,
      (stepCall overlap s.1 s.2.1 s.2.2 false).2) : RaceState)

/-- Run an arbitrary interleaving (any finite schedule of the two calls)
from the initial state: both calls past their snapshot checks, task
unassigned. -/
def run (overlap : Bool) (sched : List Bool) : RaceState :=
  sched.foldl (step overlap) (CallPhase.ready, CallPhase.ready, none)

/-- Inductive invariant of the race: the assignee cell records exactly which
call committed successfully, and two reservation conflicts cannot
coexist (the first acquirer never conflicts). -/
def inv : RaceState → Bool
  | (c1, c2, none) =>
    !(c1 == .doneAssigned) && !(c1 == .doneStoreConflict) &&
    !(c2 == .doneAssigned) && !(c2 == .doneStoreConflict) &&
    !((c1 == .doneResConflict) && (c2 == .doneResConflict))
  | (c1, c2, some false) => (c1 == .doneAssigned) && !(c2 == .doneAssigned)
  | (c1, c2, some true) => (c2 == .doneAssigned) && !(c1 == .doneAssigned)

end Coord

/-- Each atomic action preserves the race invariant (checked over the whole
finite state space). -/
theorem Coord.step_preserves_inv :
    ∀ (overlap : Bool) (s : Coord.RaceState) (w : Bool),
      Coord.inv s = true → Coord.inv (Coord.step overlap s w) = true := by decide

/-- The invariant holds after every schedule. -/
theorem Coord.run_inv (overlap : Bool) (sched : List Bool) :
    Coord.inv (Coord.run overlap sched) = true := by
  have hfold : ∀ (l : List Bool) (s : Coord.RaceState), Coord.inv s = true →
      Coord.inv (l.foldl (Coord.step overlap) s) = true := by
    intro l
    induction l with
    | nil => intro s h; exact h
    | cons w l ih =>
      intro s h
      exact ih _ (Coord.step_preserves_inv overlap s w h)
  exact hfold sched _ (by decide)

/-- C8 (spec-modelled): for two concurrent `Assign` calls on the same ready,
unassigned task, under every interleaving of their atomic acquire/commit
actions and whether or not their pattern sets overlap, the two calls never
both end `Assigned`, and once both have terminated exactly one of them is
`Assigned` (the other holds a reservation conflict or a store-level
conflict). -/
theorem Coord.no_double_assignment (overlap : Bool) (sched : List Bool) :
    (!(Coord.isAssigned (Coord.run overlap sched).1 &&
       Coord.isAssigned (Coord.run overlap sched).2.1)) = true ∧
    (Coord.phaseDone (Coord.run overlap sched).1 = true →
      Coord.phaseDone (Coord.run overlap sched).2.1 = true →
      (Coord.isAssigned (Coord.run overlap sched).1 ^^
        Coord.isAssigned (Coord.run overlap sched).2.1) = true) := by
  have hP : ∀ s : Coord.RaceState, Coord.inv s = true →
      (!(Coord.isAssigned s.1 && Coord.isAssigned s.2.1)) = true ∧
      (Coord.phaseDone s.1 = true → Coord.phaseDone s.2.1 = true →
        (Coord.isAssigned s.1 ^^ Coord.isAssigned s.2.1) = true) := by decide
  exact hP _ (Coord.run_inv overlap sched)

/-- Witness for C8 at a concrete complete schedule without pattern overlap:
call 1 acquires and commits, call 2 then acquires but loses the
compare-and-set — exactly one `Assigned`. -/
theorem Coord.no_double_assignment_witness :
    Coord.run false [false, false, true, true]
      = (Coord.CallPhase.doneAssigned, Coord.CallPhase.doneStoreConflict, some false) ∧
    (Coord.isAssigned (Coord.run false [false, false, true, true]).1 ^^
      Coord.isAssigned (Coord.run false [false, false, true, true]).2.1) = true :=
  ⟨by decide,
   (Coord.no_double_assignment false [false, false, true, true]).2 (by decide) (by decide)⟩

namespace DepUtils

/-- One line of the dependency chain: nesting level and the blocker task. -/
structure ChainEntry where
  level : Nat
  task : DTask
deriving DecidableEq, Repr

end DepUtils

namespace DepUtils

mutual

/-- Embedding of `buildDependencyChain`
(`dashboard/src/lib/utils/dependencyUtils.ts`, lines 117–147).  The JS
`visited` set is threaded explicitly (it is mutated and shared across the
`forEach` iterations and recursive calls); the `Nat` argument is the
embedding's fuel — the JS function has none, and `chainGo_fuel_stable`
below shows any fuel of at least `allTasks.length + 2` computes one and the
same result, which is the termination content of the original recursion. -/
def chainGo (allTasks : List DTask) :
    Nat → DTask → List String → List ChainEntry × List String
  | 0, _, visited => ([], visited)
  | fuel + 1, task, visited =>
    if task.id ∈ visited then ([], visited)
    else chainDeps allTasks fuel (task.depends_on.getD []) (task.id :: visited)

/-- The `forEach` over `task.depends_on`: look each dependency up in
`allTasks`; when found, emit it at level 1, recurse for its own blockers at
level +1, and continue with the grown visited set. -/
def chainDeps (allTasks : List DTask) :
    Nat → List DepRef → List String → List ChainEntry × List String
  | _, [], visited => ([], visited)
  | fuel, dep :: rest, visited =>
    match allTasks.find? (fun t => t.id == dep.id) with
    | none => chainDeps allTasks fuel rest visited
    | some blockerTask =>
      (⟨1, blockerTask⟩ ::
          (((chainGo allTasks fuel blockerTask visited).1.map
              (fun e => ⟨e.level + 1, e.task⟩)) ++
            (chainDeps allTasks fuel rest
              (chainGo allTasks fuel blockerTask visited).2).1),
        (chainDeps allTasks fuel rest
          (chainGo allTasks fuel blockerTask visited).2).2)

end

/-- The wrapper the dashboard calls: traversal from an empty visited set,
with fuel that `chainGo_fuel_stable` proves sufficient. -/
def buildDependencyChain (task : DTask) (allTasks : List DTask) : List ChainEntry :=
  (chainGo allTasks (allTasks.length + 2) task []).1

/-- Number of distinct task ids of `allTasks` not yet visited — the quantity
that bounds the remaining recursion depth. -/
def unseenCount (allTasks : List DTask) (visited : List String) : Nat :=
  (((allTasks.map DTask.id).dedup).filter (fun i => decide (i ∉ visited))).length

end DepUtils

/-- Filtering with a logically stronger predicate yields at most as many
elements. -/
theorem DepUtils.length_filter_le_of_imp {α : Type} {p q : α → Bool} (l : List α)
    (h : ∀ x, p x = true → q x = true) :
    (l.filter p).length ≤ (l.filter q).length := by
  induction l with
  | nil => simp
  | cons a l ih =>
    by_cases hpa : p a = true
    · rw [List.filter_cons_of_pos hpa, List.filter_cons_of_pos (h a hpa)]
      simpa using ih
    · rw [List.filter_cons_of_neg (by simpa using hpa)]
      cases hqa : q a with
      | true =>
        rw [List.filter_cons_of_pos hqa]
        exact Nat.le_succ_of_le ih
      | false =>
        rw [List.filter_cons_of_neg (by simp [hqa])]
        exact ih

/-- Filtering out one occurring element of a duplicate-free list strictly
shrinks the filtered length, provided the predicates agree elsewhere. -/
theorem DepUtils.length_filter_lt_of_flip {α : Type} [DecidableEq α]
    {p q : α → Bool} (l : List α) (x : α) (hl : l.Nodup) (hx : x ∈ l)
    (hpx : p x = false) (hqx : q x = true) (hagree : ∀ y, y ≠ x → p y = q y) :
    (l.filter p).length < (l.filter q).length := by
  induction l with
  | nil => cases hx
  | cons a l ih =>
    rw [List.nodup_cons] at hl
    rcases List.mem_cons.mp hx with rfl | hmem
    · rw [List.filter_cons_of_neg (by simp [hpx]), List.filter_cons_of_pos hqx]
      have hcong : l.filter p = l.filter q :=
        List.filter_congr (fun y hy => hagree y (fun hyx => hl.1 (hyx ▸ hy)))
      rw [hcong]
      exact Nat.lt_succ_self _
    · have hpa : p a = q a := hagree a (fun hax => hl.1 (hax ▸ hmem))
      cases hqa : q a with
      | true =>
        rw [List.filter_cons_of_pos (hpa.trans hqa), List.filter_cons_of_pos hqa]
        exact Nat.succ_lt_succ (ih hl.2 hmem)
      | false =>
        rw [List.filter_cons_of_neg (by simp [hpa, hqa]),
          List.filter_cons_of_neg (by simp [hqa])]
        exact ih hl.2 hmem

/-- Growing the visited set can only shrink the unseen count. -/
theorem DepUtils.unseenCount_anti (allTasks : List DepUtils.DTask)
    (visited w : List String) (h : visited ⊆ w) :
    DepUtils.unseenCount allTasks w ≤ DepUtils.unseenCount allTasks visited := by
  apply DepUtils.length_filter_le_of_imp
  intro x hx
  simp only [decide_eq_true_eq] at hx ⊢
  exact fun hmem => hx (h hmem)

/-- Visiting one not-yet-visited id of `allTasks` strictly decreases the
unseen count. -/
theorem DepUtils.unseenCount_insert_lt (allTasks : List DepUtils.DTask)
    (x : String) (visited : List String)
    (hin : x ∈ allTasks.map DepUtils.DTask.id) (hmem : x ∉ visited) :
    DepUtils.unseenCount allTasks (x :: visited)
      < DepUtils.unseenCount allTasks visited := by
  apply DepUtils.length_filter_lt_of_flip _ x (List.nodup_dedup _)
    (List.mem_dedup.mpr hin)
  · simp
  · simpa using hmem
  · intro y hyx
    simp only [decide_eq_decide, List.mem_cons, not_or]
    constructor
    · intro hy
      exact hy.2
    · intro hy
      exact ⟨hyx, hy⟩

/-- Visiting any id can only shrink the unseen count. -/
theorem DepUtils.unseenCount_insert_le (allTasks : List DepUtils.DTask)
    (x : String) (visited : List String) :
    DepUtils.unseenCount allTasks (x :: visited)
      ≤ DepUtils.unseenCount allTasks visited :=
  DepUtils.unseenCount_anti allTasks visited (x :: visited)
    (List.subset_cons_self x visited)

/-- The traversal only ever grows the visited set (joint statement for both
mutual functions, by induction on fuel with an inner induction on the
dependency list). -/
theorem DepUtils.chain_visited_mono (allTasks : List DepUtils.DTask) :
    ∀ fuel : Nat,
      (∀ task visited,
        visited ⊆ (DepUtils.chainGo allTasks fuel task visited).2) ∧
      (∀ deps visited,
        visited ⊆ (DepUtils.chainDeps allTasks fuel deps visited).2) := by
  intro fuel
  induction fuel with
  | zero =>
    have hGo : ∀ (task : DepUtils.DTask) (visited : List String),
        visited ⊆ (DepUtils.chainGo allTasks 0 task visited).2 := by
      intro task visited
      simp [DepUtils.chainGo]
    refine ⟨hGo, ?_⟩
    intro deps
    induction deps with
    | nil => intro visited; simp [DepUtils.chainDeps]
    | cons d rest ih =>
      intro visited
      show visited ⊆ (DepUtils.chainDeps allTasks 0 (d :: rest) visited).2
      simp only [DepUtils.chainDeps]
      cases allTasks.find? (fun t => t.id == d.id) with
      | none => exact ih visited
      | some bt =>
        exact List.Subset.trans (hGo bt visited)
          (ih ((DepUtils.chainGo allTasks 0 bt visited).2))
  | succ f ihf =>
    have hGo : ∀ (task : DepUtils.DTask) (visited : List String),
        visited ⊆ (DepUtils.chainGo allTasks (f + 1) task visited).2 := by
      intro task visited
      simp only [DepUtils.chainGo]
      by_cases hmem : task.id ∈ visited
      · rw [if_pos hmem]
        exact List.Subset.refl visited
      · rw [if_neg hmem]
        exact List.Subset.trans (List.subset_cons_self task.id visited)
          (ihf.2 (task.depends_on.getD []) (task.id :: visited))
    refine ⟨hGo, ?_⟩
    intro deps
    induction deps with
    | nil => intro visited; simp [DepUtils.chainDeps]
    | cons d rest ih =>
      intro visited
      show visited ⊆ (DepUtils.chainDeps allTasks (f + 1) (d :: rest) visited).2
      simp only [DepUtils.chainDeps]
      cases allTasks.find? (fun t => t.id == d.id) with
      | none => exact ih visited
      | some bt =>
        exact List.Subset.trans (hGo bt visited)
          (ih ((DepUtils.chainGo allTasks (f + 1) bt visited).2))

/-- The fuel each `chainGo` call needs: the unseen count, plus one when the
entry task's id can be charged against `allTasks` or is already visited,
plus two otherwise (only the top-level task can be outside `allTasks`). -/
def DepUtils.goCost (allTasks : List DepUtils.DTask) (task : DepUtils.DTask)
    (visited : List String) : Nat :=
  DepUtils.unseenCount allTasks visited +
    (if task.id ∈ allTasks.map DepUtils.DTask.id ∨ task.id ∈ visited then 1 else 2)

/-- One extra unit of fuel beyond the cost changes nothing: the recursion
has already converged (joint statement, by induction on fuel). -/
theorem DepUtils.chain_fuel_step (allTasks : List DepUtils.DTask) :
    ∀ f : Nat,
      (∀ task visited, DepUtils.goCost allTasks task visited ≤ f →
        DepUtils.chainGo allTasks (f + 1) task visited
          = DepUtils.chainGo allTasks f task visited) ∧
      (∀ deps visited, DepUtils.unseenCount allTasks visited + 1 ≤ f →
        DepUtils.chainDeps allTasks (f + 1) deps visited
          = DepUtils.chainDeps allTasks f deps visited) := by
  intro f
  induction f with
  | zero =>
    constructor
    · intro task visited h
      exfalso
      unfold DepUtils.goCost at h
      split at h <;> omega
    · intro deps visited h
      exact absurd h (by omega)
  | succ f ihf =>
    have hGo : ∀ task visited, DepUtils.goCost allTasks task visited ≤ f + 1 →
        DepUtils.chainGo allTasks (f + 1 + 1) task visited
          = DepUtils.chainGo allTasks (f + 1) task visited := by
      intro task visited h
      simp only [DepUtils.chainGo]
      by_cases hmem : task.id ∈ visited
      · rw [if_pos hmem, if_pos hmem]
      · rw [if_neg hmem, if_neg hmem]
        apply ihf.2
        by_cases hin : task.id ∈ allTasks.map DepUtils.DTask.id
        · have hlt := DepUtils.unseenCount_insert_lt allTasks task.id visited hin hmem
          have hc : DepUtils.goCost allTasks task visited
              = DepUtils.unseenCount allTasks visited + 1 := by
            unfold DepUtils.goCost
            rw [if_pos (Or.inl hin)]
          omega
        · have hle := DepUtils.unseenCount_insert_le allTasks task.id visited
          have hc : DepUtils.goCost allTasks task visited
              = DepUtils.unseenCount allTasks visited + 2 := by
            unfold DepUtils.goCost
            rw [if_neg (by simp [hin, hmem])]
          omega
    refine ⟨hGo, ?_⟩
    intro deps
    induction deps with
    | nil => intro visited h; simp [DepUtils.chainDeps]
    | cons d rest ih =>
      intro visited h
      show DepUtils.chainDeps allTasks (f + 1 + 1) (d :: rest) visited
        = DepUtils.chainDeps allTasks (f + 1) (d :: rest) visited
      simp only [DepUtils.chainDeps]
      cases hfind : allTasks.find? (fun t => t.id == d.id) with
      | none => exact ih visited h
      | some bt =>
        have hbtid : bt.id ∈ allTasks.map DepUtils.DTask.id :=
          List.mem_map_of_mem DepUtils.DTask.id (List.mem_of_find?_eq_some hfind)
        have hsub : DepUtils.chainGo allTasks (f + 1 + 1) bt visited
            = DepUtils.chainGo allTasks (f + 1) bt visited := by
          apply hGo
          unfold DepUtils.goCost
          rw [if_pos (Or.inl hbtid)]
          omega
        dsimp only
        rw [hsub]
        have hvc : DepUtils.unseenCount allTasks
              ((DepUtils.chainGo allTasks (f + 1) bt visited).2)
            ≤ DepUtils.unseenCount allTasks visited :=
          DepUtils.unseenCount_anti allTasks visited _
            ((DepUtils.chain_visited_mono allTasks (f + 1)).1 bt visited)
        rw [ih ((DepUtils.chainGo allTasks (f + 1) bt visited).2) (by omega)]

/-- Any amount of fuel beyond the cost computes the same traversal: the
recursion of the source, which has no fuel, is total. -/
theorem DepUtils.chainGo_fuel_stable (allTasks : List DepUtils.DTask)
    (task : DepUtils.DTask) (visited : List String) (f k : Nat)
    (h : DepUtils.goCost allTasks task visited ≤ f) :
    DepUtils.chainGo allTasks (f + k) task visited
      = DepUtils.chainGo allTasks f task visited := by
  induction k with
  | zero => rfl
  | succ k ih =>
    have hstep := (DepUtils.chain_fuel_step allTasks (f + k)).1 task visited
      (le_trans h (Nat.le_add_right f k))
    exact hstep.trans ih

/-- C4: for every task and every finite task list — cyclic dependency edges
included — the traversal terminates with a (possibly partial) chain: the
fueled embedding computes one and the same answer for every fuel at least
`allTasks.length + 2` (so the fuel-free source recursion converges), and a
task whose id is already in the visited set is never re-expanded (the
traversal returns immediately with the partial result). -/
theorem DepUtils.buildDependencyChain_cycle_safe (task : DepUtils.DTask)
    (allTasks : List DepUtils.DTask) :
    (∀ extra : Nat,
      (DepUtils.chainGo allTasks (allTasks.length + 2 + extra) task []).1
        = DepUtils.buildDependencyChain task allTasks) ∧
    (∀ (fuel : Nat) (visited : List String), task.id ∈ visited →
      DepUtils.chainGo allTasks fuel task visited = ([], visited)) := by
  constructor
  · intro extra
    unfold DepUtils.buildDependencyChain
    have h1 := List.length_filter_le (fun i => decide (i ∉ ([] : List String)))
      ((allTasks.map DepUtils.DTask.id).dedup)
    have h2 := List.Sublist.length_le (List.dedup_sublist (allTasks.map DepUtils.DTask.id))
    have h3 : (allTasks.map DepUtils.DTask.id).length = allTasks.length :=
      List.length_map _ _
    have hcost : DepUtils.goCost allTasks task [] ≤ allTasks.length + 2 := by
      unfold DepUtils.goCost DepUtils.unseenCount
      split <;> omega
    rw [DepUtils.chainGo_fuel_stable allTasks task [] (allTasks.length + 2) extra hcost]
  · intro fuel visited hmem
    cases fuel with
    | zero => simp [DepUtils.chainGo]
    | succ f => simp [DepUtils.chainGo, hmem]

namespace DepUtils

/-- First half of a two-task dependency cycle: `jat-aaa` depends on
`jat-bbb`. -/
def cycTaskA : DTask :=
  { id := "jat-aaa", title := "a", status := "open", priority := 1
    assignee := none
    depends_on := some [⟨"jat-bbb", "b", "open", 1⟩]
    blocked_by := none }

/-- Second half of the cycle: `jat-bbb` depends back on `jat-aaa`. -/
def cycTaskB : DTask :=
  { id := "jat-bbb", title := "b", status := "open", priority := 1
    assignee := none
    depends_on := some [⟨"jat-aaa", "a", "open", 1⟩]
    blocked_by := none }

end DepUtils

/-- Witness for C4 on the concrete two-task cycle: an already-visited task
is returned untouched (the cycle guard), and five units of surplus fuel
change nothing about the computed chain. -/
theorem DepUtils.buildDependencyChain_cycle_safe_witness :
    DepUtils.chainGo [DepUtils.cycTaskA, DepUtils.cycTaskB] 7 DepUtils.cycTaskA
        ["jat-aaa"] = ([], ["jat-aaa"]) ∧
    (DepUtils.chainGo [DepUtils.cycTaskA, DepUtils.cycTaskB]
        ([DepUtils.cycTaskA, DepUtils.cycTaskB].length + 2 + 5) DepUtils.cycTaskA []).1
      = DepUtils.buildDependencyChain DepUtils.cycTaskA
          [DepUtils.cycTaskA, DepUtils.cycTaskB] :=
  ⟨(DepUtils.buildDependencyChain_cycle_safe DepUtils.cycTaskA
      [DepUtils.cycTaskA, DepUtils.cycTaskB]).2 7 ["jat-aaa"] (by decide),
   (DepUtils.buildDependencyChain_cycle_safe DepUtils.cycTaskA
      [DepUtils.cycTaskA, DepUtils.cycTaskB]).1 5⟩
